import Mathlib

/-!
Verification development for the relay control core of an IBC packet relayer
(legacy per-channel scheduler and worker loop) and its settlement query shim.

The Go source is shallowly embedded: pure helper functions become Lean
functions; each stateful pass (packet pass, ack pass) becomes a function of
an explicit environment that records the results the chain providers would
return, producing the pass result together with a trace of the provider
calls it made (heights included).  Go `int64` heights are `Int`; Go `uint64`
sequence numbers are `Nat`; Go slices of `uint64` are `List Nat`; Go maps
keyed by channel id are association lists with insert-or-overwrite.
-/

namespace FuryaRelayer

/-- Channel state enum mirroring `types.State` of ibc-go (only the members the
relayer core inspects). -/
inductive ChannelState where
  | UNINITIALIZED
  | INIT
  | TRYOPEN
  | OPEN
  | CLOSED
  deriving DecidableEq, Repr

/-- Counterparty of `types.IdentifiedChannel`: counterparty channel and port id. -/
structure ChannelCounterparty where
  channelId : String
  portId : String
  deriving DecidableEq, Repr

/-- Embedding of `types.IdentifiedChannel` restricted to the fields the relay
control core reads: channel id, port id, state and counterparty. -/
structure IdentifiedChannel where
  channelId : String
  portId : String
  state : ChannelState
  counterparty : ChannelCounterparty
  deriving DecidableEq, Repr

/-- ActiveChannel pairs an observed channel with the `active` flag owned by
the legacy scheduler (source: `type ActiveChannel struct`). -/
structure ActiveChannel where
  channel : IdentifiedChannel
  active : Bool
  deriving DecidableEq, Repr

/-- Modelled from the spec: the `ChannelFilter` type itself is declared
outside the provided sources; per the spec it is a rule (allow / deny /
passthrough) together with a channel-id list. The rule is kept as a string
because the source switches on string constants with a default branch. -/
structure ChannelFilter where
  rule : String
  channelList : List String
  deriving DecidableEq, Repr

/-- Modelled from the spec: the allow-rule constant the source's
`applyChannelFilterRule` switch matches on. -/
def allowList : String := "allowlist"

/-- Modelled from the spec: the deny-rule constant the source's
`applyChannelFilterRule` switch matches on. -/
def denyList : String := "denylist"

/-- Modelled from the spec: `filter.InChannelList(id)` is membership of the
channel id in the filter's channel list. -/
def ChannelFilter.InChannelList (f : ChannelFilter) (id : String) : Bool :=
  f.channelList.contains id

/-- Embedding of `applyChannelFilterRule`: switch on the rule; the allow
branch keeps exactly the channels whose id is in the list, the deny branch
keeps exactly those whose id is not, and the default branch keeps all
channels on the connection.  The Go loops append in input order, i.e. they
are `List.filter`. -/
def applyChannelFilterRule (filter : ChannelFilter) (channels : List IdentifiedChannel) :
    List IdentifiedChannel :=
  if filter.rule = allowList then
    channels.filter (fun c => filter.InChannelList c.channelId)
  else if filter.rule = denyList then
    channels.filter (fun c => !(filter.InChannelList c.channelId))
  else
    channels

/-- Go map assignment `m[k] = v` on an association list: overwrite the
existing binding if present, otherwise append a new one. -/
def mapInsert (m : List (String × ActiveChannel)) (k : String) (v : ActiveChannel) :
    List (String × ActiveChannel) :=
  if m.any (fun p => p.1 = k) then
    m.map (fun p => if p.1 = k then (k, v) else p)
  else
    m ++ [(k, v)]

/-- Embedding of `filterOpenChannels`: keep the channels in OPEN state and
build the scheduler's map from channel id to an inactive `ActiveChannel`. -/
def filterOpenChannels (channels : List IdentifiedChannel) :
    List (String × ActiveChannel) :=
  channels.foldl
    (fun m channel =>
      if channel.state = ChannelState.OPEN then
        mapInsert m channel.channelId { channel := channel, active := false }
      else m)
    []

/-- Setup phase of `relayerMainLoop` after channel discovery succeeded: the
completion queue is allocated with capacity `len(srcChannels)` BEFORE the
filter rule and the OPEN-state filter are applied, and the scheduler's map of
open channels is built from the filtered list. -/
structure MainLoopSetup where
  queueCapacity : Nat
  openChannels : List (String × ActiveChannel)
  deriving Repr

/-- Embedding of the setup portion of `relayerMainLoop` (channel query result
given): `channels := make(chan *ActiveChannel, len(srcChannels))`, then
`applyChannelFilterRule`, then `filterOpenChannels`. -/
def relayerMainLoopSetup (discovered : List IdentifiedChannel) (filter : ChannelFilter) :
    MainLoopSetup :=
  { queueCapacity := discovered.length
    openChannels := filterOpenChannels (applyChannelFilterRule filter discovered) }

/-- Outcome of one arrival at the top of the scheduler's `for` loop: either
the terminal "no open channels" error with the number of workers spawned in
this iteration (zero), or the loop proceeds and spawns one worker per
currently inactive entry. -/
inductive SchedulerStep where
  | terminal (errMsg : String) (workersSpawned : Nat)
  | running (workersSpawned : Nat)
  deriving DecidableEq, Repr

/-- Embedding of the top of the `relayerMainLoop` for-loop: if the map of
open channels is empty, send the terminal error on the failure channel and
return without spawning a worker; otherwise mark every inactive entry active
and spawn one worker for each. -/
def relayerMainLoopIteration (openChannels : List (String × ActiveChannel)) :
    SchedulerStep :=
  if openChannels.length = 0 then
    SchedulerStep.terminal "there are no open channels to relay on" 0
  else
    SchedulerStep.running ((openChannels.filter (fun p => !p.2.active)).length)

/-- Go error value as the relay passes observe it: its message string (for
`err.Error()` substring checks) and the two flags the passes test with
`errors.Is(err, context.Canceled)` and `errors.Is(err, context.DeadlineExceeded)`. -/
structure GoError where
  msg : String
  isCanceled : Bool
  isDeadline : Bool
  deriving DecidableEq, Repr

/-- Helper for `strings.Contains`: does `pat` occur at the head of `hay`. -/
def charsLeadMatch : List Char → List Char → Bool
  | [], _ => true
  | _ :: _, [] => false
  | a :: as, b :: bs => a = b && charsLeadMatch as bs

/-- Helper for `strings.Contains`: does `pat` occur anywhere inside `hay`. -/
def charsContains (hay pat : List Char) : Bool :=
  match hay with
  | [] => charsLeadMatch pat []
  | _ :: t => charsLeadMatch pat hay || charsContains t pat

/-- Embedding of Go `strings.Contains(s, pat)`. -/
def goStringContains (s pat : String) : Bool :=
  charsContains s.toList pat.toList

/-- Modelled from the spec: `RelaySequences` (the `sp` result of
`UnrelayedSequences`) lists packet sequences committed on the source but not
yet received on the destination and the reverse. -/
structure RelaySequences where
  src : List Nat
  dst : List Nat
  deriving DecidableEq, Repr

/-- Modelled from the spec: `sp.Empty()` holds iff both directions are fully
drained at the queried heights. -/
def RelaySequences.Empty (sp : RelaySequences) : Bool :=
  sp.src.isEmpty && sp.dst.isEmpty

/-- Trace event recording one provider call made by a relay pass, with the
height arguments the source hands to that call. -/
inductive RelayEvent where
  | unrelayedSeqsQuery (srch dsth : Int)
  | relayPacketsSubmit (srch dsth : Int)
  | unrelayedAcksQuery (srch dsth : Int)
  | relayAcksSubmit (srch : Int)
  deriving DecidableEq, Repr

/-- Environment of one packet pass: the result of `QueryLatestHeights`, the
oracle for `UnrelayedSequences` (keyed by the two height arguments the pass
supplies) and the oracle for `RelayPackets` (`none` = nil error). -/
structure PacketPassEnv where
  queryLatestHeights : Except GoError (Int × Int)
  unrelayedSequences : Int → Int → RelaySequences
  relayPackets : Int → Int → RelaySequences → Option GoError

/-- Embedding of `relayUnrelayedPackets`: query heights (failure logs and
returns false); compute the unrelayed sequences at `srch-1, dsth-1`; return
true early when empty; otherwise call `RelayPackets` at the unadjusted
heights and classify its error: context cancellation or deadline returns
false, an error whose message contains
"Internal error: transaction indexing is disabled" logs the operator hint
and returns false, and any other application-level error logs and returns
true.  Returns the Go boolean with the trace of provider calls. -/
def relayUnrelayedPackets (env : PacketPassEnv) : Bool × List RelayEvent :=
  match env.queryLatestHeights with
  | Except.error _ => (false, [])
  | Except.ok (srch, dsth) =>
    let sp := env.unrelayedSequences (srch - 1) (dsth - 1)
    let trace0 := [RelayEvent.unrelayedSeqsQuery (srch - 1) (dsth - 1)]
    if sp.Empty then (true, trace0)
    else
      let trace1 := trace0 ++ [RelayEvent.relayPacketsSubmit srch dsth]
      match env.relayPackets srch dsth sp with
      | none => (true, trace1)
      | some err =>
        if err.isDeadline || err.isCanceled then (false, trace1)
        else if goStringContains err.msg "Internal error: transaction indexing is disabled" then
          (false, trace1)
        else (true, trace1)

/-- Result of the `unrelayedAcknowledgements` call inside the ack helper: the
sequence list it returns, the candidate cache (`*relayedAckSequences` copy)
as the call leaves it through the pointer it receives, and its error. -/
structure AcksQueryResult where
  sequences : List Nat
  candidate : List Nat
  err : Option GoError

/-- Environment of one ack-relay direction: the oracle for
`unrelayedAcknowledgements` (keyed by the two height arguments and the cache
handed in) and the oracle for `relayAcknowledgements`. -/
structure AcksDirEnv where
  unrelayedAcknowledgements : Int → Int → List Nat → AcksQueryResult
  relayAcknowledgements : Int → List Nat → Option GoError

/-- Outcome of `relayUnrelayedAcksHelper`: either the explicit `panic(err)`
on the observed inconsistency, or a normal return carrying the Go error
value, the final contents of the caller's `*relayedAckSequences`, and the
trace of provider calls. -/
inductive AcksHelperResult where
  | panicked (e : GoError) (trace : List RelayEvent)
  | returned (err : Option GoError) (cache : List Nat) (trace : List RelayEvent)
  deriving DecidableEq, Repr

/-- Embedding of `relayUnrelayedAcksHelper`: adjust both heights by one, run
`unrelayedAcknowledgements` on a candidate copy of the cache at the adjusted
heights; if it returned a non-empty sequence list together with a non-nil
error, `panic(err)`; with sequences and a nil error, submit via
`relayAcknowledgements` at the unadjusted source height (a context
cancellation or deadline error returns early, an application error falls
through with `err` still set); finally the candidate cache is written back
to the caller only when `err` is nil, and `err` is returned. -/
def relayUnrelayedAcksHelper (srch dsth : Int) (cache : List Nat) (env : AcksDirEnv) :
    AcksHelperResult :=
  let adjustedSrch := srch - 1
  let adjustedDsth := dsth - 1
  let q := env.unrelayedAcknowledgements adjustedSrch adjustedDsth cache
  let trace0 := [RelayEvent.unrelayedAcksQuery adjustedSrch adjustedDsth]
  if q.sequences.isEmpty then
    match q.err with
    | some e => AcksHelperResult.returned (some e) cache trace0
    | none => AcksHelperResult.returned none q.candidate trace0
  else
    match q.err with
    | some e => AcksHelperResult.panicked e trace0
    | none =>
      let trace1 := trace0 ++ [RelayEvent.relayAcksSubmit srch]
      match env.relayAcknowledgements srch q.sequences with
      | some e =>
        if e.isDeadline || e.isCanceled then
          AcksHelperResult.returned (some e) cache trace1
        else
          AcksHelperResult.returned (some e) cache trace1
      | none => AcksHelperResult.returned none q.candidate trace1

/-- Environment of one ack pass: the `QueryLatestHeights` result and the two
direction environments (src→dst and dst→src). -/
structure AcksPassEnv where
  queryLatestHeights : Except GoError (Int × Int)
  srcDir : AcksDirEnv
  dstDir : AcksDirEnv

/-- Outcome of `relayUnrelayedAcks`: a panic escaping from one of the two
direction goroutines, or the Go boolean together with the final contents of
the two caches. -/
inductive AcksPassResult where
  | panicked (e : GoError)
  | done (ok : Bool) (cacheSrc cacheDst : List Nat)
  deriving DecidableEq, Repr

/-- Embedding of `relayUnrelayedAcks`: query heights (failure returns false
with the caches untouched); run the helper for both directions (src with
heights `(srch, dsth)`, dst with `(dsth, srch)`); return false when either
direction returned a non-nil error, true otherwise. -/
def relayUnrelayedAcks (env : AcksPassEnv) (cacheSrc cacheDst : List Nat) :
    AcksPassResult :=
  match env.queryLatestHeights with
  | Except.error _ => AcksPassResult.done false cacheSrc cacheDst
  | Except.ok (srch, dsth) =>
    match relayUnrelayedAcksHelper srch dsth cacheSrc env.srcDir,
          relayUnrelayedAcksHelper dsth srch cacheDst env.dstDir with
    | AcksHelperResult.panicked e _, _ => AcksPassResult.panicked e
    | _, AcksHelperResult.panicked e _ => AcksPassResult.panicked e
    | AcksHelperResult.returned srcErr sc _, AcksHelperResult.returned dstErr dc _ =>
      AcksPassResult.done (srcErr.isNone && dstErr.isNone) sc dc

/-- Outcome of a Go function body: a normal return (cancellation and
terminal errors are returns in the worker) or a panic carrying a message. -/
inductive GoOutcome where
  | ret
  | panicked (msg : String)
  deriving DecidableEq, Repr

/-- Observable effects of the worker's deferred function: whether
`wg.Done()` ran and whether the `ActiveChannel` was sent on the completion
queue. -/
structure WorkerDeferObs where
  wgDone : Bool
  completionSent : Bool
  deriving DecidableEq, Repr

/-- The deferred closure at the top of `relayUnrelayedPacketsAndAcks` runs
`wg.Done()` and sends `srcChannel` on the completion queue; it contains no
`recover()` call (and neither does the rest of the function). -/
def workerDeferEffects : WorkerDeferObs × Bool :=
  ({ wgDone := true, completionSent := true }, false)

/-- Embedding of the exit behaviour of `relayUnrelayedPacketsAndAcks` under
the Go defer/panic semantics: on any exit of the body (return or panic) the
deferred closure runs and its effects are observed; a panicking body, with
no `recover()` in the deferred closure, resumes panicking after the deferred
closure finishes, so the panic leaves the goroutine. -/
def relayUnrelayedPacketsAndAcksExit (body : GoOutcome) : WorkerDeferObs × GoOutcome :=
  let (obs, recovers) := workerDeferEffects
  match body with
  | GoOutcome.ret => (obs, GoOutcome.ret)
  | GoOutcome.panicked m =>
    (obs, if recovers then GoOutcome.ret else GoOutcome.panicked m)

/-- One iteration of the worker's reconciliation loop in
`relayUnrelayedPacketsAndAcks`: run the packet pass, exit on `!ok`; run the
ack pass, exit on `!ok` (a panic in the ack pass aborts); otherwise sleep
and continue. -/
inductive WorkerStep where
  | exited
  | aborted (e : GoError)
  | continued (cacheSrc cacheDst : List Nat)
  deriving DecidableEq, Repr

/-- Embedding of one iteration of the worker loop body (the sleep/cancel
select is folded into `continued`). -/
def workerIteration (penv : PacketPassEnv) (aenv : AcksPassEnv)
    (cacheSrc cacheDst : List Nat) : WorkerStep :=
  if (relayUnrelayedPackets penv).1 = false then WorkerStep.exited
  else
    match relayUnrelayedAcks aenv cacheSrc cacheDst with
    | AcksPassResult.panicked e => WorkerStep.aborted e
    | AcksPassResult.done false _ _ => WorkerStep.exited
    | AcksPassResult.done true sc dc => WorkerStep.continued sc dc

/-- Error observed by the settlement client's `LatestFinalizedStateInfo`
query: either a gRPC status error (from which `status.FromError` extracts a
code with `ok = true`) or a non-status error (`ok = false`). -/
inductive SettlementQueryError where
  | statusErr (code : Nat) (msg : String)
  | plainErr (msg : String)
  deriving DecidableEq, Repr

/-- The gRPC `codes.NotFound` constant. -/
def codesNotFound : Nat := 5

/-- StateInfo fields of the latest-finalized-state response the settlement
client reads; both are Go `uint64` values. -/
structure StateInfo where
  startHeight : Nat
  numBlocks : Nat
  deriving DecidableEq, Repr

/-- Go `uint64` arithmetic for `StartHeight + NumBlocks - 1`: addition and
the subtraction of one wrap modulo `2^64`. -/
def uint64AddSub1 (s n : Nat) : Nat :=
  (s + n + (2 ^ 64 - 1)) % 2 ^ 64

/-- Go conversion `int64(u)` of a `uint64` value: reinterpret the bit
pattern, i.e. subtract `2^64` when the value is at least `2^63`. -/
def int64OfUInt64 (u : Nat) : Int :=
  if u < 2 ^ 63 then (u : Int) else (u : Int) - 2 ^ 64

/-- Embedding of `QueryLatestFinalizedHeight`: on a query error, return
`(-1, nil)` when it is a gRPC status error with code `NotFound` and
`(-1, err)` otherwise; on a nil response return `-1` with a fresh error; on
success return `int64(StateInfo.StartHeight + StateInfo.NumBlocks - 1)` with
a nil error.  The error component is the message, `none` meaning nil. -/
def QueryLatestFinalizedHeight
    (queryResult : Except SettlementQueryError (Option StateInfo)) :
    Int × Option String :=
  match queryResult with
  | Except.error (SettlementQueryError.statusErr code msg) =>
    if code = codesNotFound then (-1, none) else (-1, some msg)
  | Except.error (SettlementQueryError.plainErr msg) => (-1, some msg)
  | Except.ok none => (-1, some "can\x27t get latest-finalized-state info")
  | Except.ok (some si) =>
    (int64OfUInt64 (uint64AddSub1 si.startHeight si.numBlocks), none)

/-! Theorems -/

/-- Membership form of the channel-list test. -/
theorem InChannelList_iff (f : ChannelFilter) (id : String) :
    f.InChannelList id = true ↔ id ∈ f.channelList := by
  simp [ChannelFilter.InChannelList]

/-- The two filter-rule constants differ. -/
theorem denyList_ne_allowList : denyList ≠ allowList := by
  decide

/-- The filtered channel list is a sublist of the input in every rule branch. -/
theorem applyChannelFilterRule_sublist (f : ChannelFilter) (C : List IdentifiedChannel) :
    (applyChannelFilterRule f C).Sublist C := by
  unfold applyChannelFilterRule
  split
  · exact List.filter_sublist C
  · split
    · exact List.filter_sublist C
    · exact List.Sublist.refl C

/-- C6: applyChannelFilterRule keeps exactly the channels whose channel id is
in the filter list under the allow rule, exactly those whose channel id is
not in the list under the deny rule, and all channels under any other rule
(in particular the passthrough rule); the relative order of the input is
preserved (the output is a sublist); with an empty channel list the allow
rule yields the empty result and the deny rule yields the whole input. -/
theorem applyChannelFilterRule_spec (f : ChannelFilter) (C : List IdentifiedChannel) :
    (applyChannelFilterRule f C).Sublist C
    ∧ (f.rule = allowList →
        ∀ c, c ∈ applyChannelFilterRule f C ↔ c ∈ C ∧ c.channelId ∈ f.channelList)
    ∧ (f.rule = denyList →
        ∀ c, c ∈ applyChannelFilterRule f C ↔ c ∈ C ∧ c.channelId ∉ f.channelList)
    ∧ (f.rule ≠ allowList → f.rule ≠ denyList → applyChannelFilterRule f C = C)
    ∧ (f.channelList = [] →
        (f.rule = allowList → applyChannelFilterRule f C = [])
        ∧ (f.rule = denyList → applyChannelFilterRule f C = C)) := by
  refine ⟨applyChannelFilterRule_sublist f C, ?_, ?_, ?_, ?_⟩
  · intro h c
    simp [applyChannelFilterRule, h, List.mem_filter, ChannelFilter.InChannelList]
  · intro h c
    have hne : f.rule ≠ allowList := by
      rw [h]; exact denyList_ne_allowList
    simp [applyChannelFilterRule, h, hne, denyList_ne_allowList, List.mem_filter,
      ChannelFilter.InChannelList]
  · intro h1 h2
    simp [applyChannelFilterRule, h1, h2]
  · intro hl
    constructor
    · intro h
      simp [applyChannelFilterRule, h, ChannelFilter.InChannelList, hl]
    · intro h
      have hne : f.rule ≠ allowList := by
        rw [h]; exact denyList_ne_allowList
      simp [applyChannelFilterRule, h, hne, denyList_ne_allowList, ChannelFilter.InChannelList, hl]

/-- Witness for C6: concrete evaluations of the filter through the theorem,
discharging each rule hypothesis at a concrete filter and channel list. -/
theorem applyChannelFilterRule_spec_witness :
    (applyChannelFilterRule { rule := "allowlist", channelList := [] }
      [{ channelId := "ch-0", portId := "transfer", state := ChannelState.OPEN,
         counterparty := { channelId := "ch-9", portId := "transfer" } }] = [])
    ∧ (applyChannelFilterRule { rule := "denylist", channelList := [] }
      [{ channelId := "ch-0", portId := "transfer", state := ChannelState.OPEN,
         counterparty := { channelId := "ch-9", portId := "transfer" } }]
      = [{ channelId := "ch-0", portId := "transfer", state := ChannelState.OPEN,
           counterparty := { channelId := "ch-9", portId := "transfer" } }]) :=
  ⟨((applyChannelFilterRule_spec { rule := "allowlist", channelList := [] }
      [{ channelId := "ch-0", portId := "transfer", state := ChannelState.OPEN,
         counterparty := { channelId := "ch-9", portId := "transfer" } }]).2.2.2.2 rfl).1 rfl,
   ((applyChannelFilterRule_spec { rule := "denylist", channelList := [] }
      [{ channelId := "ch-0", portId := "transfer", state := ChannelState.OPEN,
         counterparty := { channelId := "ch-9", portId := "transfer" } }]).2.2.2.2 rfl).2 rfl⟩

/-- Inserting into the scheduler map grows it by at most one binding. -/
theorem mapInsert_length_le (m : List (String × ActiveChannel)) (k : String) (v : ActiveChannel) :
    (mapInsert m k v).length ≤ m.length + 1 := by
  unfold mapInsert
  split
  · simp
  · simp

/-- The scheduler map built by filterOpenChannels has at most one entry per
input channel. -/
theorem filterOpenChannels_length_le (channels : List IdentifiedChannel) :
    (filterOpenChannels channels).length ≤ channels.length := by
  unfold filterOpenChannels
  suffices h : ∀ (l : List IdentifiedChannel) (m : List (String × ActiveChannel)),
      (l.foldl
        (fun m channel =>
          if channel.state = ChannelState.OPEN then
            mapInsert m channel.channelId { channel := channel, active := false }
          else m)
        m).length ≤ m.length + l.length by
    simpa using h channels []
  intro l
  induction l with
  | nil => intro m; simp
  | cons c t ih =>
    intro m
    simp only [List.foldl_cons, List.length_cons]
    split
    · calc _ ≤ (mapInsert m c.channelId { channel := c, active := false }).length + t.length :=
            ih _
        _ ≤ m.length + 1 + t.length := by
            exact Nat.add_le_add_right (mapInsert_length_le m _ _) _
        _ = m.length + (t.length + 1) := by omega
    · calc _ ≤ m.length + t.length := ih m
        _ ≤ m.length + (t.length + 1) := by omega

/-- Counterexample for C5: with two discovered channels of which only one is
OPEN and a passthrough filter, the completion queue is allocated with
capacity 2 while only one worker is spawned, so the capacity does not equal
the initial worker count. -/
theorem relayerMainLoopSetup_capacity_cex :
    (relayerMainLoopSetup
      [{ channelId := "ch-0", portId := "transfer", state := ChannelState.OPEN,
         counterparty := { channelId := "ch-8", portId := "transfer" } },
       { channelId := "ch-1", portId := "transfer", state := ChannelState.CLOSED,
         counterparty := { channelId := "ch-9", portId := "transfer" } }]
      { rule := "", channelList := [] }).queueCapacity = 2
    ∧ (relayerMainLoopSetup
      [{ channelId := "ch-0", portId := "transfer", state := ChannelState.OPEN,
         counterparty := { channelId := "ch-8", portId := "transfer" } },
       { channelId := "ch-1", portId := "transfer", state := ChannelState.CLOSED,
         counterparty := { channelId := "ch-9", portId := "transfer" } }]
      { rule := "", channelList := [] }).openChannels.length = 1
    ∧ (2 : Nat) ≠ 1 := by
  refine ⟨rfl, ?_, by decide⟩
  rfl

/-- C5 amended: the completion queue of the legacy scheduler is allocated
with capacity equal to the number of channels discovered on the connection
(before the filter rule and the OPEN-state restriction are applied); this is
an upper bound on the number of workers initially spawned, so each worker's
single completion send still never blocks. -/
theorem relayerMainLoopSetup_capacity (discovered : List IdentifiedChannel)
    (filter : ChannelFilter) :
    (relayerMainLoopSetup discovered filter).queueCapacity = discovered.length
    ∧ (relayerMainLoopSetup discovered filter).openChannels.length
        ≤ (relayerMainLoopSetup discovered filter).queueCapacity := by
  constructor
  · rfl
  · calc (relayerMainLoopSetup discovered filter).openChannels.length
        ≤ (applyChannelFilterRule filter discovered).length :=
          filterOpenChannels_length_le _
      _ ≤ discovered.length := by
          have h := applyChannelFilterRule_sublist filter discovered
          exact h.length_le

/-- A channel list containing no OPEN channel produces the empty scheduler map. -/
theorem filterOpenChannels_of_no_open (l : List IdentifiedChannel)
    (h : ∀ c ∈ l, c.state ≠ ChannelState.OPEN) : filterOpenChannels l = [] := by
  unfold filterOpenChannels
  induction l with
  | nil => rfl
  | cons c t ih =>
    simp only [List.foldl_cons]
    rw [if_neg (h c (by simp))]
    exact ih (fun x hx => h x (by simp [hx]))

/-- C8: whenever the scheduler's map of open channels is empty at the top of
its main loop, it reports the terminal error
"there are no open channels to relay on" on the failure channel and returns,
spawning no workers; in particular this happens at startup whenever
discovery plus filtering yields no OPEN channel. -/
theorem relayerMainLoop_no_open_channels (m : List (String × ActiveChannel))
    (hm : m = []) (discovered : List IdentifiedChannel) (filter : ChannelFilter)
    (hnone : ∀ c ∈ applyChannelFilterRule filter discovered, c.state ≠ ChannelState.OPEN) :
    relayerMainLoopIteration m
      = SchedulerStep.terminal "there are no open channels to relay on" 0
    ∧ relayerMainLoopIteration (relayerMainLoopSetup discovered filter).openChannels
      = SchedulerStep.terminal "there are no open channels to relay on" 0 := by
  constructor
  · rw [hm]; rfl
  · have hempty : (relayerMainLoopSetup discovered filter).openChannels = [] :=
      filterOpenChannels_of_no_open _ hnone
    rw [hempty]; rfl

/-- Witness for C8: the empty map and a startup whose only discovered
channel is CLOSED both yield the terminal "no open channels" step. -/
theorem relayerMainLoop_no_open_channels_witness :
    relayerMainLoopIteration []
      = SchedulerStep.terminal "there are no open channels to relay on" 0
    ∧ relayerMainLoopIteration
        (relayerMainLoopSetup
          [{ channelId := "ch-1", portId := "transfer", state := ChannelState.CLOSED,
             counterparty := { channelId := "ch-9", portId := "transfer" } }]
          { rule := "", channelList := [] }).openChannels
      = SchedulerStep.terminal "there are no open channels to relay on" 0 :=
  relayerMainLoop_no_open_channels [] rfl
    [{ channelId := "ch-1", portId := "transfer", state := ChannelState.CLOSED,
       counterparty := { channelId := "ch-9", portId := "transfer" } }]
    { rule := "", channelList := [] }
    (by intro c hc; simp [applyChannelFilterRule, allowList, denyList] at hc; rw [hc]; decide)

/-- Concrete packet-pass environment in which `RelayPackets` fails with the
recognized indexing-disabled error message. -/
def indexingDisabledEnv : PacketPassEnv :=
  { queryLatestHeights := Except.ok (10, 20)
    unrelayedSequences := fun _ _ => { src := [1], dst := [] }
    relayPackets := fun _ _ _ =>
      some { msg := "Internal error: transaction indexing is disabled",
             isCanceled := false, isDeadline := false } }

/-- Ack-pass environment with nothing to relay in either direction. -/
def trivialAcksEnv : AcksPassEnv :=
  { queryLatestHeights := Except.ok (10, 20)
    srcDir :=
      { unrelayedAcknowledgements := fun _ _ cache =>
          { sequences := [], candidate := cache, err := none }
        relayAcknowledgements := fun _ _ => none }
    dstDir :=
      { unrelayedAcknowledgements := fun _ _ cache =>
          { sequences := [], candidate := cache, err := none }
        relayAcknowledgements := fun _ _ => none } }

/-- Counterexample for C1: when `RelayPackets` fails with an error whose
message contains the recognized substring "transaction indexing is disabled"
(and no context cancellation is involved), `relayUnrelayedPackets` reports
FAILURE (returns false) and the worker iteration exits, contrary to the
claim that it reports success and continues. -/
theorem relayUnrelayedPackets_indexing_cex :
    goStringContains "Internal error: transaction indexing is disabled"
      "transaction indexing is disabled" = true
    ∧ (relayUnrelayedPackets indexingDisabledEnv).1 = false
    ∧ workerIteration indexingDisabledEnv trivialAcksEnv [] [] = WorkerStep.exited := by
  refine ⟨by decide, by decide, by decide⟩

/-- C1 (amended): for every packet pass in which `RelayPackets` fails with
an error whose message contains the recognized substring
"Internal error: transaction indexing is disabled" and which is neither a
context cancellation nor a deadline, the error is logged with extra
operator context but treated as TERMINAL at the worker level:
`relayUnrelayedPackets` returns false and the channel worker exits its
reconciliation loop. -/
theorem relayUnrelayedPackets_indexing_disabled (env : PacketPassEnv) (srch dsth : Int)
    (e : GoError)
    (hq : env.queryLatestHeights = Except.ok (srch, dsth))
    (hsp : (env.unrelayedSequences (srch - 1) (dsth - 1)).Empty = false)
    (hrp : env.relayPackets srch dsth (env.unrelayedSequences (srch - 1) (dsth - 1)) = some e)
    (hc : e.isCanceled = false) (hd : e.isDeadline = false)
    (hm : goStringContains e.msg "Internal error: transaction indexing is disabled" = true) :
    (relayUnrelayedPackets env).1 = false
    ∧ ∀ aenv cs cd, workerIteration env aenv cs cd = WorkerStep.exited := by
  have hfst : (relayUnrelayedPackets env).1 = false := by
    unfold relayUnrelayedPackets
    rw [hq]
    simp [hsp, hrp, hc, hd, hm]
  refine ⟨hfst, ?_⟩
  intro aenv cs cd
  unfold workerIteration
  rw [hfst]
  simp

/-- Witness for C1: the amended theorem applied to the concrete
indexing-disabled environment. -/
theorem relayUnrelayedPackets_indexing_disabled_witness :
    (relayUnrelayedPackets indexingDisabledEnv).1 = false
    ∧ workerIteration indexingDisabledEnv trivialAcksEnv [] [] = WorkerStep.exited := by
  have h := relayUnrelayedPackets_indexing_disabled indexingDisabledEnv 10 20
    { msg := "Internal error: transaction indexing is disabled",
      isCanceled := false, isDeadline := false }
    rfl rfl rfl rfl rfl (by decide)
  exact ⟨h.1, h.2 trivialAcksEnv [] []⟩

/-- Trace accessor of an ack-helper outcome. -/
def AcksHelperResult.trace : AcksHelperResult → List RelayEvent
  | AcksHelperResult.panicked _ t => t
  | AcksHelperResult.returned _ _ t => t

/-- Shape of the packet-pass trace once the heights query succeeded: the
unrelayed-sequences query at the decremented heights always happens, and the
only other possible call is the submission at the unadjusted heights. -/
theorem relayUnrelayedPackets_trace (env : PacketPassEnv) (srch dsth : Int)
    (hq : env.queryLatestHeights = Except.ok (srch, dsth)) :
    (relayUnrelayedPackets env).2 = [RelayEvent.unrelayedSeqsQuery (srch - 1) (dsth - 1)]
    ∨ (relayUnrelayedPackets env).2
      = [RelayEvent.unrelayedSeqsQuery (srch - 1) (dsth - 1),
         RelayEvent.relayPacketsSubmit srch dsth] := by
  unfold relayUnrelayedPackets
  rw [hq]
  by_cases hE : (env.unrelayedSequences (srch - 1) (dsth - 1)).Empty
  · left; simp [hE]
  · rw [Bool.not_eq_true] at hE
    cases hrp : env.relayPackets srch dsth (env.unrelayedSequences (srch - 1) (dsth - 1)) with
    | none => right; simp [hE, hrp]
    | some e =>
      right
      simp [hE, hrp, apply_ite Prod.snd]

/-- Shape of the ack-helper trace: the unrelayed-acknowledgements query at
the decremented heights always happens, and the only other possible call is
the submission at the unadjusted source height. -/
theorem relayUnrelayedAcksHelper_trace (srch dsth : Int) (cache : List Nat)
    (env : AcksDirEnv) :
    (relayUnrelayedAcksHelper srch dsth cache env).trace
      = [RelayEvent.unrelayedAcksQuery (srch - 1) (dsth - 1)]
    ∨ (relayUnrelayedAcksHelper srch dsth cache env).trace
      = [RelayEvent.unrelayedAcksQuery (srch - 1) (dsth - 1),
         RelayEvent.relayAcksSubmit srch] := by
  unfold relayUnrelayedAcksHelper
  rcases hu : env.unrelayedAcknowledgements (srch - 1) (dsth - 1) cache with ⟨seqs, cand, qerr⟩
  simp only [hu]
  cases seqs with
  | nil => cases qerr <;> simp [AcksHelperResult.trace]
  | cons a t =>
    cases qerr with
    | some e => simp [AcksHelperResult.trace]
    | none =>
      cases hr : env.relayAcknowledgements srch (a :: t) with
      | none => right; simp [hr, AcksHelperResult.trace]
      | some e => right; simp [hr, AcksHelperResult.trace, apply_ite AcksHelperResult.trace]

/-- C7: in every packet pass, once the latest heights `(srch, dsth)` are
known, the unrelayed-sequence computation is invoked at `srch - 1` and
`dsth - 1` while any packet submission uses the unadjusted `srch, dsth`;
in every ack-pass direction invoked with heights `(asrch, adsth)`, the
unrelayed-acknowledgements computation is invoked at `asrch - 1` and
`adsth - 1` while any ack submission uses the unadjusted `asrch`. -/
theorem relay_heights_adjusted (penv : PacketPassEnv) (srch dsth : Int)
    (hq : penv.queryLatestHeights = Except.ok (srch, dsth))
    (aenv : AcksDirEnv) (asrch adsth : Int) (cache : List Nat) :
    (RelayEvent.unrelayedSeqsQuery (srch - 1) (dsth - 1) ∈ (relayUnrelayedPackets penv).2
      ∧ ∀ a b, RelayEvent.relayPacketsSubmit a b ∈ (relayUnrelayedPackets penv).2 →
          a = srch ∧ b = dsth)
    ∧ (RelayEvent.unrelayedAcksQuery (asrch - 1) (adsth - 1)
        ∈ (relayUnrelayedAcksHelper asrch adsth cache aenv).trace
      ∧ ∀ a, RelayEvent.relayAcksSubmit a
          ∈ (relayUnrelayedAcksHelper asrch adsth cache aenv).trace → a = asrch) := by
  constructor
  · rcases relayUnrelayedPackets_trace penv srch dsth hq with h | h <;> rw [h]
    · constructor
      · simp
      · intro a b hab
        simp at hab
    · constructor
      · simp
      · intro a b hab
        simp at hab
        exact hab
  · rcases relayUnrelayedAcksHelper_trace asrch adsth cache aenv with h | h <;> rw [h]
    · constructor
      · simp
      · intro a ha
        simp at ha
    · constructor
      · simp
      · intro a ha
        simp at ha
        exact ha

/-- Witness for C7: concrete memberships obtained through the theorem at
concrete heights. -/
theorem relay_heights_adjusted_witness :
    RelayEvent.unrelayedSeqsQuery 9 19 ∈ (relayUnrelayedPackets indexingDisabledEnv).2
    ∧ RelayEvent.unrelayedAcksQuery 4 6
        ∈ (relayUnrelayedAcksHelper 5 7 [] trivialAcksEnv.srcDir).trace :=
  ⟨(relay_heights_adjusted indexingDisabledEnv 10 20 rfl trivialAcksEnv.srcDir 5 7 []).1.1,
   (relay_heights_adjusted indexingDisabledEnv 10 20 rfl trivialAcksEnv.srcDir 5 7 []).2.1⟩

/-- Ack-pass environment in which the src→dst direction finds one pending
ack and its submission fails with an application-level error (neither
cancellation nor deadline), while the other direction has nothing to do. -/
def ackAppErrorEnv : AcksPassEnv :=
  { queryLatestHeights := Except.ok (10, 20)
    srcDir :=
      { unrelayedAcknowledgements := fun _ _ cache =>
          { sequences := [4], candidate := cache ++ [4], err := none }
        relayAcknowledgements := fun _ _ =>
          some { msg := "rpc error: ack submission failed",
                 isCanceled := false, isDeadline := false } }
    dstDir :=
      { unrelayedAcknowledgements := fun _ _ cache =>
          { sequences := [], candidate := cache, err := none }
        relayAcknowledgements := fun _ _ => none } }

/-- Packet-pass environment whose queue is empty, so the packet pass
succeeds trivially. -/
def emptyQueuePacketEnv : PacketPassEnv :=
  { queryLatestHeights := Except.ok (10, 20)
    unrelayedSequences := fun _ _ => { src := [], dst := [] }
    relayPackets := fun _ _ _ => none }

/-- Counterexample for C2: with an application-level error from
`relayAcknowledgements` in one direction, `relayUnrelayedAcks` returns
false (not true as claimed) and the channel worker exits its loop. -/
theorem relayUnrelayedAcks_app_error_cex :
    relayUnrelayedAcks ackAppErrorEnv [] [] = AcksPassResult.done false [] []
    ∧ workerIteration emptyQueuePacketEnv ackAppErrorEnv [] [] = WorkerStep.exited := by
  refine ⟨by decide, by decide⟩

/-- Ack-pass environment symmetric to `ackAppErrorEnv`: the dst→src
direction finds one pending ack and its submission fails with an
application-level error, while the src→dst direction has nothing to do. -/
def ackAppErrorDstEnv : AcksPassEnv :=
  { queryLatestHeights := Except.ok (10, 20)
    srcDir :=
      { unrelayedAcknowledgements := fun _ _ cache =>
          { sequences := [], candidate := cache, err := none }
        relayAcknowledgements := fun _ _ => none }
    dstDir :=
      { unrelayedAcknowledgements := fun _ _ cache =>
          { sequences := [4], candidate := cache ++ [4], err := none }
        relayAcknowledgements := fun _ _ =>
          some { msg := "rpc error: ack submission failed",
                 isCanceled := false, isDeadline := false } } }

/-- A direction whose `unrelayedAcknowledgements` succeeds with pending
sequences and whose `relayAcknowledgements` fails returns that error with
the cache exactly as handed in. -/
theorem relayUnrelayedAcksHelper_app_error (srch dsth : Int) (cache : List Nat)
    (env : AcksDirEnv) (seqs cand : List Nat) (e : GoError)
    (hu : env.unrelayedAcknowledgements (srch - 1) (dsth - 1) cache
          = { sequences := seqs, candidate := cand, err := none })
    (hs : seqs.isEmpty = false)
    (hr : env.relayAcknowledgements srch seqs = some e) :
    relayUnrelayedAcksHelper srch dsth cache env
      = AcksHelperResult.returned (some e) cache
          [RelayEvent.unrelayedAcksQuery (srch - 1) (dsth - 1),
           RelayEvent.relayAcksSubmit srch] := by
  unfold relayUnrelayedAcksHelper
  simp only [hu]
  cases seqs with
  | nil => simp at hs
  | cons a t => simp [hr]

/-- C2 (amended): for every ack pass in which `relayAcknowledgements` fails
in either direction (src→dst or dst→src) with an application-level error
(neither context cancellation nor deadline exceeded), the attempt is marked
FAILED at the worker level: whenever the pass completes without a panic it
reports false, and the channel worker never continues its loop after such a
pass. -/
theorem relayUnrelayedAcks_app_error (env : AcksPassEnv) (cs cd : List Nat)
    (srch dsth : Int) (seqs cand : List Nat) (e : GoError)
    (hq : env.queryLatestHeights = Except.ok (srch, dsth))
    (hs : seqs.isEmpty = false)
    (hc : e.isCanceled = false) (hd : e.isDeadline = false)
    (hdir :
      (env.srcDir.unrelayedAcknowledgements (srch - 1) (dsth - 1) cs
          = { sequences := seqs, candidate := cand, err := none }
        ∧ env.srcDir.relayAcknowledgements srch seqs = some e)
      ∨ (env.dstDir.unrelayedAcknowledgements (dsth - 1) (srch - 1) cd
          = { sequences := seqs, candidate := cand, err := none }
        ∧ env.dstDir.relayAcknowledgements dsth seqs = some e)) :
    (∀ ok sc dc, relayUnrelayedAcks env cs cd = AcksPassResult.done ok sc dc → ok = false)
    ∧ (∀ penv sc dc, workerIteration penv env cs cd ≠ WorkerStep.continued sc dc) := by
  have hmain : (∃ e2, relayUnrelayedAcks env cs cd = AcksPassResult.panicked e2)
      ∨ (∃ sc2 dc2, relayUnrelayedAcks env cs cd = AcksPassResult.done false sc2 dc2) := by
    rcases hdir with ⟨hu, hr⟩ | ⟨hu, hr⟩
    · have hsrc := relayUnrelayedAcksHelper_app_error srch dsth cs env.srcDir seqs cand e hu hs hr
      cases hdst : relayUnrelayedAcksHelper dsth srch cd env.dstDir with
      | panicked e2 tr => exact Or.inl ⟨e2, by simp [relayUnrelayedAcks, hq, hsrc, hdst]⟩
      | returned de dc2 tr =>
        exact Or.inr ⟨cs, dc2, by simp [relayUnrelayedAcks, hq, hsrc, hdst]⟩
    · have hdst := relayUnrelayedAcksHelper_app_error dsth srch cd env.dstDir seqs cand e hu hs hr
      cases hsrc : relayUnrelayedAcksHelper srch dsth cs env.srcDir with
      | panicked e2 tr => exact Or.inl ⟨e2, by simp [relayUnrelayedAcks, hq, hsrc, hdst]⟩
      | returned se sc2 tr =>
        exact Or.inr ⟨sc2, cd, by simp [relayUnrelayedAcks, hq, hsrc, hdst]⟩
  constructor
  · intro ok sc dc h
    rcases hmain with ⟨e2, hp⟩ | ⟨sc2, dc2, hd2⟩
    · rw [hp] at h; cases h
    · rw [hd2] at h
      cases h
      rfl
  · intro penv sc dc h
    unfold workerIteration at h
    split at h
    · cases h
    · rcases hmain with ⟨e2, hp⟩ | ⟨sc2, dc2, hd2⟩
      · rw [hp] at h; cases h
      · rw [hd2] at h; cases h

/-- Witness for C2: the amended theorem applied to concrete environments
with the application error in the src→dst direction and in the dst→src
direction. -/
theorem relayUnrelayedAcks_app_error_witness :
    workerIteration emptyQueuePacketEnv ackAppErrorEnv [] [] ≠ WorkerStep.continued [] [4]
    ∧ workerIteration emptyQueuePacketEnv ackAppErrorDstEnv [] [] ≠ WorkerStep.continued [] [4] :=
  ⟨(relayUnrelayedAcks_app_error ackAppErrorEnv [] [] 10 20 [4] [4]
      { msg := "rpc error: ack submission failed", isCanceled := false, isDeadline := false }
      rfl rfl rfl rfl (Or.inl ⟨rfl, rfl⟩)).2 emptyQueuePacketEnv [] [4],
   (relayUnrelayedAcks_app_error ackAppErrorDstEnv [] [] 10 20 [4] [4]
      { msg := "rpc error: ack submission failed", isCanceled := false, isDeadline := false }
      rfl rfl rfl rfl (Or.inr ⟨rfl, rfl⟩)).2 emptyQueuePacketEnv [] [4]⟩

/-- Counterexample for C3: a panicking worker body still runs the deferred
signal (wait group decremented, completion sent), but the panic is not
recovered: the exit outcome is still a panic, so it escapes the worker
boundary, contrary to the claim. -/
theorem worker_panic_escapes_cex :
    (relayUnrelayedPacketsAndAcksExit (GoOutcome.panicked "assertion failed")).1
      = { wgDone := true, completionSent := true }
    ∧ (relayUnrelayedPacketsAndAcksExit (GoOutcome.panicked "assertion failed")).2
      = GoOutcome.panicked "assertion failed" := by
  refine ⟨rfl, rfl⟩

/-- C3 (amended): on every exit of the channel worker body — normal return
(which covers cancellation and terminal errors) or panic — the deferred
function decrements the wait group and sends the ActiveChannel on the
completion queue; the outcome itself is passed through unchanged, so a
panic, not being recovered, escapes the worker boundary after the
completion signal. -/
theorem relayUnrelayedPacketsAndAcksExit_spec (body : GoOutcome) :
    (relayUnrelayedPacketsAndAcksExit body).1
      = { wgDone := true, completionSent := true }
    ∧ (relayUnrelayedPacketsAndAcksExit body).2 = body := by
  cases body <;> exact ⟨rfl, rfl⟩

/-- Panic discriminator of an ack-helper outcome. -/
def AcksHelperResult.isPanicked : AcksHelperResult → Bool
  | AcksHelperResult.panicked _ _ => true
  | AcksHelperResult.returned _ _ _ => false

/-- C4: `relayUnrelayedAcksHelper` panics if and only if
`unrelayedAcknowledgements` returns a non-empty sequence list together with
a non-nil error; whenever the sequence list is empty or the error is nil,
the helper returns normally. -/
theorem relayUnrelayedAcksHelper_panic_iff (srch dsth : Int) (cache : List Nat)
    (env : AcksDirEnv) :
    (relayUnrelayedAcksHelper srch dsth cache env).isPanicked = true
    ↔ ((env.unrelayedAcknowledgements (srch - 1) (dsth - 1) cache).sequences ≠ []
       ∧ (env.unrelayedAcknowledgements (srch - 1) (dsth - 1) cache).err ≠ none) := by
  unfold relayUnrelayedAcksHelper
  rcases hu : env.unrelayedAcknowledgements (srch - 1) (dsth - 1) cache with ⟨seqs, cand, qerr⟩
  simp only [hu]
  cases seqs with
  | nil => cases qerr <;> simp [AcksHelperResult.isPanicked]
  | cons a t =>
    cases qerr with
    | some e => simp [AcksHelperResult.isPanicked]
    | none =>
      cases hr : env.relayAcknowledgements srch (a :: t) with
      | none => simp [hr, AcksHelperResult.isPanicked]
      | some e =>
        simp [hr, AcksHelperResult.isPanicked, apply_ite AcksHelperResult.isPanicked]

/-- Case analysis on the ack helper's outcome: it either panics, or returns
a non-nil error with the cache exactly as handed in, or returns a nil error
with the candidate cache produced by `unrelayedAcknowledgements`. -/
theorem relayUnrelayedAcksHelper_cases (srch dsth : Int) (cache : List Nat)
    (env : AcksDirEnv) :
    (∃ e tr, relayUnrelayedAcksHelper srch dsth cache env
        = AcksHelperResult.panicked e tr)
    ∨ (∃ e tr, relayUnrelayedAcksHelper srch dsth cache env
        = AcksHelperResult.returned (some e) cache tr)
    ∨ (∃ tr, relayUnrelayedAcksHelper srch dsth cache env
        = AcksHelperResult.returned none
            (env.unrelayedAcknowledgements (srch - 1) (dsth - 1) cache).candidate tr) := by
  unfold relayUnrelayedAcksHelper
  rcases hu : env.unrelayedAcknowledgements (srch - 1) (dsth - 1) cache with ⟨seqs, cand, qerr⟩
  simp only [hu]
  cases seqs with
  | nil =>
    cases qerr with
    | some e =>
      exact Or.inr (Or.inl ⟨e, [RelayEvent.unrelayedAcksQuery (srch - 1) (dsth - 1)], by simp⟩)
    | none =>
      exact Or.inr (Or.inr ⟨[RelayEvent.unrelayedAcksQuery (srch - 1) (dsth - 1)], by simp⟩)
  | cons a t =>
    cases qerr with
    | some e =>
      exact Or.inl ⟨e, [RelayEvent.unrelayedAcksQuery (srch - 1) (dsth - 1)], by simp⟩
    | none =>
      cases hr : env.relayAcknowledgements srch (a :: t) with
      | none =>
        exact Or.inr (Or.inr ⟨[RelayEvent.unrelayedAcksQuery (srch - 1) (dsth - 1),
          RelayEvent.relayAcksSubmit srch], by simp [hr]⟩)
      | some e =>
        refine Or.inr (Or.inl ⟨e, [RelayEvent.unrelayedAcksQuery (srch - 1) (dsth - 1),
          RelayEvent.relayAcksSubmit srch], ?_⟩)
        simp [hr]

/-- C9: whenever `relayUnrelayedAcksHelper` returns a non-nil error, the
caller's relayed-ack cache is exactly as it was before the call; the
candidate cache produced by `unrelayedAcknowledgements` is written back
only on a nil error. -/
theorem relayUnrelayedAcksHelper_cache (srch dsth : Int) (cache : List Nat)
    (env : AcksDirEnv) (err : Option GoError) (c : List Nat) (tr : List RelayEvent)
    (h : relayUnrelayedAcksHelper srch dsth cache env = AcksHelperResult.returned err c tr) :
    (err.isSome = true → c = cache)
    ∧ (err = none →
        c = (env.unrelayedAcknowledgements (srch - 1) (dsth - 1) cache).candidate) := by
  rcases relayUnrelayedAcksHelper_cases srch dsth cache env with
    ⟨e, tr2, hx⟩ | ⟨e, tr2, hx⟩ | ⟨tr2, hx⟩
  · rw [hx] at h
    exact AcksHelperResult.noConfusion h
  · rw [hx] at h
    injection h with h1 h2 h3
    subst h1
    subst h2
    exact ⟨fun _ => rfl, fun hn => Option.noConfusion hn⟩
  · rw [hx] at h
    injection h with h1 h2 h3
    subst h1
    subst h2
    exact ⟨fun hs => Bool.noConfusion hs, fun _ => rfl⟩

/-- Witness for C9: a concrete helper call that returns an application
error and leaves the cache exactly as it was. -/
theorem relayUnrelayedAcksHelper_cache_witness :
    relayUnrelayedAcksHelper 10 20 [3] ackAppErrorEnv.srcDir
      = AcksHelperResult.returned
          (some { msg := "rpc error: ack submission failed",
                  isCanceled := false, isDeadline := false }) [3]
          [RelayEvent.unrelayedAcksQuery 9 19, RelayEvent.relayAcksSubmit 10]
    ∧ ([3] : List Nat) = [3] :=
  ⟨by decide,
   (relayUnrelayedAcksHelper_cache 10 20 [3] ackAppErrorEnv.srcDir
      (some { msg := "rpc error: ack submission failed",
              isCanceled := false, isDeadline := false }) [3]
      [RelayEvent.unrelayedAcksQuery 9 19, RelayEvent.relayAcksSubmit 10]
      (by decide)).1 rfl⟩

/-- C10: `QueryLatestFinalizedHeight` returns `(-1, nil)` exactly when the
latest-finalized-state query fails with gRPC status code NotFound; any other
query error or a nil response yields `-1` together with a non-nil error; on
success (with the `uint64` arithmetic neither underflowing nor exceeding the
`int64` range) it returns `StateInfo.StartHeight + StateInfo.NumBlocks - 1`
with a nil error. -/
theorem QueryLatestFinalizedHeight_spec
    (q : Except SettlementQueryError (Option StateInfo)) :
    (∀ code msg, q = Except.error (SettlementQueryError.statusErr code msg) →
      ((QueryLatestFinalizedHeight q = (-1, none) ↔ code = codesNotFound)
       ∧ (code ≠ codesNotFound → QueryLatestFinalizedHeight q = (-1, some msg))))
    ∧ (∀ msg, q = Except.error (SettlementQueryError.plainErr msg) →
        QueryLatestFinalizedHeight q = (-1, some msg))
    ∧ (q = Except.ok none →
        QueryLatestFinalizedHeight q
          = (-1, some "can\x27t get latest-finalized-state info"))
    ∧ (∀ si, q = Except.ok (some si) →
        1 ≤ si.startHeight + si.numBlocks →
        si.startHeight + si.numBlocks - 1 < 2 ^ 63 →
        QueryLatestFinalizedHeight q
          = (((si.startHeight + si.numBlocks - 1 : Nat) : Int), none)) := by
  refine ⟨?_, ?_, ?_, ?_⟩
  · intro code msg hq
    subst hq
    constructor
    · constructor
      · intro h
        by_contra hne
        simp [QueryLatestFinalizedHeight, hne] at h
      · intro h
        simp [QueryLatestFinalizedHeight, h]
    · intro hne
      simp [QueryLatestFinalizedHeight, hne]
  · intro msg hq
    subst hq
    rfl
  · intro hq
    subst hq
    rfl
  · intro si hq h1 h2
    subst hq
    show (int64OfUInt64 (uint64AddSub1 si.startHeight si.numBlocks), (none : Option String))
      = _
    have hwrap : uint64AddSub1 si.startHeight si.numBlocks
        = si.startHeight + si.numBlocks - 1 := by
      unfold uint64AddSub1
      have heq : si.startHeight + si.numBlocks + (2 ^ 64 - 1)
          = (si.startHeight + si.numBlocks - 1) + 2 ^ 64 := by
        omega
      rw [heq, Nat.add_mod_right, Nat.mod_eq_of_lt]
      calc si.startHeight + si.numBlocks - 1 < 2 ^ 63 := h2
        _ < 2 ^ 64 := by norm_num
    rw [hwrap]
    unfold int64OfUInt64
    rw [if_pos h2]

/-- Witness for C10: the theorem applied to a NotFound failure and to a
successful response with concrete state info. -/
theorem QueryLatestFinalizedHeight_spec_witness :
    QueryLatestFinalizedHeight
        (Except.error (SettlementQueryError.statusErr 5 "rollapp not found")) = (-1, none)
    ∧ QueryLatestFinalizedHeight (Except.ok (some { startHeight := 10, numBlocks := 5 }))
        = (14, none) :=
  ⟨((QueryLatestFinalizedHeight_spec
      (Except.error (SettlementQueryError.statusErr 5 "rollapp not found"))).1
      5 "rollapp not found" rfl).1.mpr rfl,
   by
    have h := ((QueryLatestFinalizedHeight_spec
      (Except.ok (some { startHeight := 10, numBlocks := 5 }))).2.2.2
      { startHeight := 10, numBlocks := 5 } rfl (by norm_num) (by norm_num))
    simpa using h⟩

end FuryaRelayer
